import Mathlib

/-
Shallow embedding of `src/ImageDiff/ImageDiff.cpp` (Hearwindsaying/ImageUtil).

Modelling conventions:
* C++ `double`/`float` values are embedded as exact rationals `ℚ`; the
  decimal literals of the source become the corresponding exact rationals.
  `sqrt` (C++ `sqrt` on doubles) is embedded as `Real.sqrt` on the cast to `ℝ`.
  In `ℚ` (and `ℝ`) division by zero yields `0`, where IEEE arithmetic would
  produce `inf`/`NaN`; the places where this matters are flagged at the
  corresponding theorems.
* `std::vector<double>` becomes `List ℚ`; the unchecked C++ indexing
  `v[i]` becomes `List.getD v i 0` (all theorems that depend on an index
  keep it inside the vector's bounds, where `getD` agrees with the C++ read;
  out-of-bounds C++ reads are undefined behaviour and are noted where relevant).
* The FreeImage codec is an external collaborator: decoding a file and
  converting its pixels to luminance (the body of `loadImageToLuminance`
  after the extension check, lines 150-225 of the source) is abstracted as
  a `decode : List Char → List ℚ` oracle parameter.  The extension check
  itself (lines 126-148) is embedded faithfully.
* Console output is not modelled; `main` is embedded as the pair of its
  process exit code and the data it reports (`Report`).
-/

namespace ImageUtil

/-- `ImageUtil::luminance` (source lines 15-18): the BT.709-weighted sum of
the three colour channels. -/
def luminance (r g b : ℚ) : ℚ :=
  0.212671 * r + 0.715160 * g + 0.072169 * b

/-- `ImageUtil::diffVector` (source lines 20-32): element-wise absolute
difference, iterating over the indices of the first vector.  (The source
`assert`s equal sizes but performs no runtime check in release builds.) -/
def diffVector (v1 v2 : List ℚ) : List ℚ :=
  (List.range v1.length).map (fun i => |v1.getD i 0 - v2.getD i 0|)

end ImageUtil

/-- The fragment of FreeImage's `FREE_IMAGE_FORMAT` enumeration used by the
source: the two accepted HDR containers and the unknown marker. -/
inductive FREE_IMAGE_FORMAT where
  | FIF_HDR : FREE_IMAGE_FORMAT
  | FIF_EXR : FREE_IMAGE_FORMAT
  | FIF_UNKNOWN : FREE_IMAGE_FORMAT
deriving DecidableEq

namespace ImageRMSE

/-- `std::tolower(c, std::locale())` on the default "C" locale: lower-cases
the ASCII letters `A`-`Z` and leaves every other character unchanged. -/
def tolowerChar (c : Char) : Char :=
  if 'A' ≤ c ∧ c ≤ 'Z' then Char.ofNat (c.toNat + 32) else c

/-- The `find_last_of(".")`/`substr(extension_index + 1)` pair of the
source's format-detection lambda (lines 129-132): `some s` is the suffix
after the last dot, `none` when the filename has no dot at all. -/
def substrAfterLastDot : List Char → Option (List Char)
  | [] => none
  | c :: rest =>
    match substrAfterLastDot rest with
    | some e => some e
    | none => if c = '.' then some rest else none

/-- The `getFreeImageFormat` lambda inside `loadImageToLuminance`
(source lines 126-141): take the extension after the last dot (the empty
string when there is no dot), lower-case it, and map `hdr`/`exr` to their
formats and everything else to `FIF_UNKNOWN`. -/
def getFreeImageFormat (filename : List Char) : FREE_IMAGE_FORMAT :=
  let ext := (match substrAfterLastDot filename with
    | some e => e
    | none => ([] : List Char)).map tolowerChar
  if ext = ['h', 'd', 'r'] then FREE_IMAGE_FORMAT.FIF_HDR
  else if ext = ['e', 'x', 'r'] then FREE_IMAGE_FORMAT.FIF_EXR
  else FREE_IMAGE_FORMAT.FIF_UNKNOWN

/-- `ImageRMSE::loadImageToLuminance` (source lines 121-226): if the
extension check yields `FIF_UNKNOWN` the function prints to the error
stream and returns the empty vector (lines 143-148); otherwise the file is
decoded by FreeImage and converted pixel-by-pixel to luminance, which is
abstracted here as the external `decode` oracle. -/
def loadImageToLuminance (decode : List Char → List ℚ) (filename : List Char) : List ℚ :=
  if getFreeImageFormat filename = FREE_IMAGE_FORMAT.FIF_UNKNOWN then []
  else decode filename

/-- `ImageRMSE::maxDiff` (source lines 86-101): the running maximum starts
at `(0, |data1[0] - data2[0]|)` and is replaced only on a strict `>`, the
loop running over the indices of `data1`. -/
def maxDiff (data1 data2 : List ℚ) : ℕ × ℚ :=
  (List.range data1.length).foldl
    (fun res i =>
      if |data1.getD i 0 - data2.getD i 0| > res.2 then
        (i, |data1.getD i 0 - data2.getD i 0|)
      else res)
    (0, |data1.getD 0 0 - data2.getD 0 0|)

/-- The accumulation loop of `ImageRMSE::rmse` (source lines 105-109):
`rmse += (data1[i] - data2[i]) * (data1[i] - data2[i])` over the indices of
`data1`. -/
def rmseSq (data1 data2 : List ℚ) : ℚ :=
  (List.range data1.length).foldl
    (fun acc i => acc + (data1.getD i 0 - data2.getD i 0) * (data1.getD i 0 - data2.getD i 0))
    0

/-- `ImageRMSE::rmse` (source lines 103-113): `sqrt(1.0 / data1.size() * rmse)`
with `rmse` the accumulated sum of squared differences. -/
noncomputable def rmse (data1 data2 : List ℚ) : ℝ :=
  Real.sqrt ((1 / (data1.length : ℚ) * rmseSq data1 data2 : ℚ) : ℝ)

/-- `ImageRMSE::saveLuminanceImage` (source lines 231-261): packages a
luminance buffer into an RGBAF bitmap of the given size, writing
`R = G = B = buffer[width * y + x]`, `A = 1` for the pixel at column `x` of
logical row `y` (the physical scanline `height - y - 1`, FreeImage's rows
being stored bottom-up; the list below is in logical top-down row-major
order, matching the buffer indexing `buf_index = (width * y + x) * 1`). -/
def saveLuminanceImage (buffer : List ℚ) (width height : ℕ) : List (ℚ × ℚ × ℚ × ℚ) :=
  ((List.range height).map (fun y =>
    (List.range width).map (fun x =>
      (buffer.getD (width * y + x) 0, buffer.getD (width * y + x) 0,
        buffer.getD (width * y + x) 0, (1 : ℚ))))).flatten

/-- The data printed and exported by `ImageRMSE::computeRMSE`
(source lines 43-70): the two RMSE values, and — in diff mode only — the
two `maxDiff` results and the two absolute-difference buffers passed to
`saveLuminanceImage` for export to `diff1.exr`/`diff2.exr`. -/
structure Report where
  rmse1 : ℝ
  rmse2 : ℝ
  maxInfo : Option ((ℕ × ℚ) × (ℕ × ℚ))
  diffs : Option (List ℚ × List ℚ)

/-- `ImageRMSE::computeRMSE` (source lines 43-70): load the three images
(an unsupported extension yields the empty field), compute both RMSE values
against the reference, and in diff mode additionally the two `maxDiff`
results and the two difference buffers.  The `assert` on line 49 passes
whenever at least one of the three fields is non-empty and is compiled out
of release builds; it is not part of the value-level behaviour modelled
here. -/
noncomputable def computeRMSE (decode : List Char → List ℚ)
    (data1 data2 ref : List Char) (diffImage : Bool) : Report :=
  let image1 := loadImageToLuminance decode data1
  let image2 := loadImageToLuminance decode data2
  let imageRef := loadImageToLuminance decode ref
  { rmse1 := rmse image1 imageRef
    rmse2 := rmse image2 imageRef
    maxInfo := if diffImage then some (maxDiff image1 imageRef, maxDiff image2 imageRef)
      else none
    diffs := if diffImage then
        some (ImageUtil.diffVector image1 imageRef, ImageUtil.diffVector image2 imageRef)
      else none }

end ImageRMSE

/-- `main` (source lines 268-283): with fewer than 4 `argv` entries
(program name plus 3 positional arguments) it prints a usage message to the
error stream and returns 1 with nothing reported; otherwise it runs
`computeRMSE` on `argv[1..3]` with diff mode enabled exactly when
`argc == 5`, and returns 0. -/
noncomputable def mainProgram (decode : List Char → List ℚ)
    (argv : List (List Char)) : ℕ × Option ImageRMSE.Report :=
  if argv.length < 4 then (1, none)
  else (0, some (ImageRMSE.computeRMSE decode (argv.getD 1 []) (argv.getD 2 [])
    (argv.getD 3 []) (argv.length == 5)))

/-- A concrete decode oracle used by closed instances below: every
successfully sniffed file decodes to the one-pixel luminance field `[1]`. -/
def decodeConst : List Char → List ℚ := fun _ => [1]

/-- Concrete `argv` with a `.png` first candidate among three otherwise
well-formed arguments. -/
def argvPng : List (List Char) :=
  [String.toList "prog", String.toList "a.png", String.toList "b.exr",
    String.toList "ref.exr"]

/-- Concrete `argv` carrying five positional arguments (`argc = 6`). -/
def argvSix : List (List Char) :=
  [String.toList "prog", String.toList "a.exr", String.toList "b.exr",
    String.toList "ref.exr", String.toList "true", String.toList "extra"]

/-- Folding `fun acc i => acc + f i` over `List.range n` from `c` is `c`
plus the sum of `f` over `Finset.range n`. -/
lemma foldl_add_range (f : ℕ → ℚ) (n : ℕ) : ∀ c : ℚ,
    (List.range n).foldl (fun acc i => acc + f i) c = c + ∑ i in Finset.range n, f i := by
  induction n with
  | zero => intro c; simp
  | succ m ih =>
    intro c
    rw [List.range_succ, List.foldl_append, ih, Finset.sum_range_succ]
    simp [add_assoc]

/-- The accumulation loop of `rmse` equals the closed-form sum of squared
differences over the indices of the first field. -/
lemma rmseSq_eq_sum (a b : List ℚ) :
    ImageRMSE.rmseSq a b =
      ∑ i in Finset.range a.length, (a.getD i 0 - b.getD i 0) * (a.getD i 0 - b.getD i 0) := by
  rw [ImageRMSE.rmseSq, foldl_add_range, zero_add]

/-- The scan pattern of `maxDiff` over an arbitrary difference function `d`:
start from `(0, d 0)` and replace the running pair only on a strict
increase. -/
def maxRun (d : ℕ → ℚ) (n : ℕ) : ℕ × ℚ :=
  (List.range n).foldl (fun res i => if d i > res.2 then (i, d i) else res) (0, d 0)

/-- `maxDiff` is the `maxRun` scan of `fun i => |a[i] - b[i]|` over the
length of the first field. -/
lemma maxDiff_eq_maxRun (a b : List ℚ) :
    ImageRMSE.maxDiff a b = maxRun (fun i => |a.getD i 0 - b.getD i 0|) a.length := rfl

/-- Scanning zero elements leaves the initial pair. -/
lemma maxRun_zero (d : ℕ → ℚ) : maxRun d 0 = (0, d 0) := rfl

/-- One more scanned element updates the pair exactly on a strict
increase of `d`. -/
lemma maxRun_succ (d : ℕ → ℚ) (n : ℕ) :
    maxRun d (n + 1) = if d n > (maxRun d n).2 then (n, d n) else maxRun d n := by
  unfold maxRun
  rw [List.range_succ, List.foldl_append]
  rfl

/-- Invariant of the `maxRun` scan for a non-empty range: the returned
index lies in range, carries its own `d` value, the value bounds `d` on the
whole range, and `d` is strictly below the maximum before the returned
index (so the index is the first one attaining the maximum). -/
lemma maxRun_spec (d : ℕ → ℚ) (n : ℕ) (hn : 1 ≤ n) :
    (maxRun d n).1 < n ∧ (maxRun d n).2 = d (maxRun d n).1 ∧
      (∀ i, i < n → d i ≤ (maxRun d n).2) ∧
      ∀ j, j < (maxRun d n).1 → d j < (maxRun d n).2 := by
  induction n with
  | zero => exact absurd hn (by norm_num)
  | succ m ih =>
    rcases Nat.eq_zero_or_pos m with hm | hm
    · subst hm
      rw [maxRun_succ, maxRun_zero, if_neg (lt_irrefl (d 0))]
      refine ⟨Nat.zero_lt_one, rfl, ?_, ?_⟩
      · intro i hi
        interval_cases i
        exact le_refl _
      · intro j hj
        exact absurd hj (Nat.not_lt_zero j)
    · obtain ⟨h1, h2, h3, h4⟩ := ih hm
      rw [maxRun_succ]
      by_cases hc : d m > (maxRun d m).2
      · rw [if_pos hc]
        refine ⟨Nat.lt_succ_self _, rfl, ?_, ?_⟩
        · intro i hi
          rcases Nat.lt_succ_iff_lt_or_eq.mp hi with hi' | hi'
          · exact le_of_lt (lt_of_le_of_lt (h3 i hi') hc)
          · subst hi'; exact le_refl _
        · intro j hj
          exact lt_of_le_of_lt (h3 j hj) hc
      · rw [if_neg hc]
        refine ⟨Nat.lt_succ_of_lt h1, h2, ?_, h4⟩
        intro i hi
        rcases Nat.lt_succ_iff_lt_or_eq.mp hi with hi' | hi'
        · exact h3 i hi'
        · subst hi'; exact not_lt.mp hc

/-- Two difference functions agreeing on the scanned range (and at the
initialisation index `0`) produce the same scan result. -/
lemma maxRun_congr (d d' : ℕ → ℚ) (n : ℕ) (h0 : d 0 = d' 0)
    (h : ∀ i, i < n → d i = d' i) : maxRun d n = maxRun d' n := by
  induction n with
  | zero => simp [maxRun_zero, h0]
  | succ m ih =>
    rw [maxRun_succ, maxRun_succ, ih (fun i hi => h i (Nat.lt_succ_of_lt hi)),
      h m (Nat.lt_succ_self m)]

/-- Reading a mapped range list at an in-range index yields the mapped
function value. -/
lemma getD_map_range {α : Type} (f : ℕ → α) (n i : ℕ) (hi : i < n) (dflt : α) :
    ((List.range n).map f).getD i dflt = f i := by
  have h1 : i < ((List.range n).map f).length := by simpa using hi
  rw [List.getD_eq_getElem _ _ h1]
  simp

/-- The row-by-row pixel assembly of `saveLuminanceImage` flattens to a
single map over the flat pixel indices `0 .. width*height - 1`. -/
lemma saveLuminanceImage_eq_map (buffer : List ℚ) (w h : ℕ) :
    ImageRMSE.saveLuminanceImage buffer w h =
      (List.range (w * h)).map
        (fun i => (buffer.getD i 0, buffer.getD i 0, buffer.getD i 0, (1 : ℚ))) := by
  induction h with
  | zero => simp [ImageRMSE.saveLuminanceImage]
  | succ m ih =>
    unfold ImageRMSE.saveLuminanceImage at ih ⊢
    rw [List.range_succ, List.map_append, List.flatten_append, ih, Nat.mul_succ,
      List.range_add, List.map_append, List.map_map]
    simp [Function.comp]

/-- A filename without any dot has no extension: the `find_last_of`
embedding returns `none`. -/
lemma substrAfterLastDot_eq_none (l : List Char) (h : '.' ∉ l) :
    ImageRMSE.substrAfterLastDot l = none := by
  induction l with
  | nil => rfl
  | cons c rest ih =>
    have hc : ¬(c = '.') := fun hcc => h (hcc ▸ List.mem_cons_self c rest)
    have hr : '.' ∉ rest := fun hm => h (List.mem_cons_of_mem c hm)
    simp [ImageRMSE.substrAfterLastDot, ih hr, hc]

/-- C1: for every pair of non-empty, equal-length luminance fields `a` and
`b` of length `n`, `rmse a b` returns `sqrt((1/n) * Σ_i (a[i] - b[i])^2)`. -/
theorem rmse_formula (a b : List ℚ) (hne : a ≠ []) (hlen : a.length = b.length) :
    ImageRMSE.rmse a b =
      Real.sqrt ((1 / (a.length : ℝ)) *
        ∑ i in Finset.range a.length, ((a.getD i 0 : ℝ) - (b.getD i 0 : ℝ)) ^ 2) := by
  rw [ImageRMSE.rmse, rmseSq_eq_sum]
  congr 1
  push_cast
  congr 1
  exact Finset.sum_congr rfl fun i _ => by ring

/-- C1 witness: `rmse_formula` evaluated on the concrete fields `[0, 3]`
and `[0, 0]`, giving `sqrt((1/2) * 9) = sqrt(9/2)`. -/
theorem rmse_formula_eval : ImageRMSE.rmse [0, 3] [0, 0] = Real.sqrt (9 / 2) := by
  have h := rmse_formula [0, 3] [0, 0] (List.cons_ne_nil 0 [3]) rfl
  rw [h]
  norm_num [Finset.sum_range_succ]

/-- C2: for non-empty equal-length fields, `maxDiff a b` returns a pair of
an in-range index carrying its own absolute difference, that difference is
the maximum over all indices, every index before the returned one has a
strictly smaller difference (ties keep the earliest index); in particular
`maxDiff [0,3,3,0] [0,0,0,0] = (1, 3)`. -/
theorem maxDiff_first_max_index (a b : List ℚ) (hne : a ≠ []) (hlen : a.length = b.length) :
    ((ImageRMSE.maxDiff a b).1 < a.length ∧
      (ImageRMSE.maxDiff a b).2 =
        |a.getD (ImageRMSE.maxDiff a b).1 0 - b.getD (ImageRMSE.maxDiff a b).1 0| ∧
      (∀ i, i < a.length → |a.getD i 0 - b.getD i 0| ≤ (ImageRMSE.maxDiff a b).2) ∧
      ∀ j, j < (ImageRMSE.maxDiff a b).1 →
        |a.getD j 0 - b.getD j 0| < (ImageRMSE.maxDiff a b).2) ∧
    ImageRMSE.maxDiff [0, 3, 3, 0] [0, 0, 0, 0] = (1, 3) := by
  constructor
  · rw [maxDiff_eq_maxRun]
    exact maxRun_spec _ a.length (Nat.one_le_iff_ne_zero.mpr
      (fun h0 => hne (List.length_eq_zero.mp h0)))
  · norm_num [ImageRMSE.maxDiff, List.range_succ]

/-- C2 witness: `maxDiff_first_max_index` applied at the concrete
tie-breaking example of the claim. -/
theorem maxDiff_first_max_index_eval :
    ImageRMSE.maxDiff [0, 3, 3, 0] [0, 0, 0, 0] = (1, 3) :=
  (maxDiff_first_max_index [0, 3, 3, 0] [0, 0, 0, 0] (List.cons_ne_nil 0 [3, 3, 0]) rfl).2

/-- C3 counterexample: with `len(a) = 3` and `len(b) = 4` neither `rmse`
nor `maxDiff` fails — there is no `LengthMismatch` error path in the code —
and both return computed values (`rmse` the value `sqrt((1/3) * 0) = 0`,
`maxDiff` the pair `(0, 0)`), refuting the claim that mismatched lengths
never yield a computed value. -/
theorem rmse_maxDiff_mismatched_lengths_return_values :
    ImageRMSE.rmse [0, 0, 0] [0, 0, 0, 0] = 0 ∧
    ImageRMSE.maxDiff [0, 0, 0] [0, 0, 0, 0] = (0, 0) := by
  constructor
  · rw [ImageRMSE.rmse,
      show ImageRMSE.rmseSq [0, 0, 0] [0, 0, 0, 0] = 0 from by
        norm_num [ImageRMSE.rmseSq, List.range_succ]]
    norm_num
  · norm_num [ImageRMSE.maxDiff, List.range_succ]

/-- C3 amended: the code performs no length check at all; `rmse` and
`maxDiff` iterate over the indices of the first field only, so for a
non-empty `a` with `len(a) ≤ len(b)` both return the value computed from
the first `len(a)` elements of each field (and when `len(a) > len(b)` the
C++ reads `b` out of bounds). -/
theorem rmse_maxDiff_use_only_first_length (a b : List ℚ) (hne : a ≠ [])
    (hab : a.length ≤ b.length) :
    ImageRMSE.rmse a b = ImageRMSE.rmse a (b.take a.length) ∧
    ImageRMSE.maxDiff a b = ImageRMSE.maxDiff a (b.take a.length) := by
  have hgd : ∀ i, i < a.length → (b.take a.length).getD i 0 = b.getD i 0 := by
    intro i hi
    have hib : i < b.length := lt_of_lt_of_le hi hab
    have h1 : i < (b.take a.length).length := by
      rw [List.length_take]
      exact lt_min hi hib
    rw [List.getD_eq_getElem _ 0 h1, List.getD_eq_getElem _ 0 hib]
    exact List.getElem_take b
  have h0 : 0 < a.length := List.length_pos.mpr hne
  constructor
  · rw [ImageRMSE.rmse, ImageRMSE.rmse, rmseSq_eq_sum, rmseSq_eq_sum]
    have hsum : ∑ i in Finset.range a.length,
          (a.getD i 0 - b.getD i 0) * (a.getD i 0 - b.getD i 0) =
        ∑ i in Finset.range a.length,
          (a.getD i 0 - (List.take a.length b).getD i 0) *
            (a.getD i 0 - (List.take a.length b).getD i 0) :=
      Finset.sum_congr rfl fun i hi => by rw [hgd i (Finset.mem_range.mp hi)]
    rw [hsum]
  · rw [maxDiff_eq_maxRun, maxDiff_eq_maxRun]
    exact maxRun_congr _ _ _ (by rw [hgd 0 h0]) fun i hi => by rw [hgd i hi]

/-- C3 amended witness: `rmse_maxDiff_use_only_first_length` at the
concrete length-3 versus length-4 fields of the counterexample. -/
theorem rmse_maxDiff_use_only_first_length_eval :
    ImageRMSE.rmse [0, 0, 0] [0, 0, 0, 0] = ImageRMSE.rmse [0, 0, 0] [0, 0, 0] ∧
    ImageRMSE.maxDiff [0, 0, 0] [0, 0, 0, 0] = ImageRMSE.maxDiff [0, 0, 0] [0, 0, 0] :=
  rmse_maxDiff_use_only_first_length [0, 0, 0] [0, 0, 0, 0]
    (List.cons_ne_nil 0 [0, 0]) (by norm_num)

/-- C4 counterexample: on two zero-length fields `rmse` does not fail —
there is no `EmptyInput` error path in the code — but evaluates
`sqrt(1/0 * 0)` and returns it: `0` in this exact-arithmetic model where
`1/0 = 0` (the IEEE run returns the double `NaN`; either way a value is
returned, not a failure). -/
theorem rmse_empty_input_returns_value : ImageRMSE.rmse [] [] = 0 := by
  rw [ImageRMSE.rmse, show ImageRMSE.rmseSq [] [] = 0 from rfl]
  norm_num

/-- C4 amended: neither function checks for empty input. For an empty
first field `rmse` still returns the value `sqrt(1/0 * 0)` (the double
`NaN` under IEEE arithmetic, `0` in this exact model), and `maxDiff`
initialises from index 0 of the empty field (an out-of-bounds read in C++,
the default `0` here) and returns `(0, |b[0]|)`. -/
theorem rmse_maxDiff_no_empty_input_check (b : List ℚ) :
    ImageRMSE.rmse [] b = 0 ∧ ImageRMSE.maxDiff [] b = (0, |b.getD 0 0|) := by
  constructor
  · rw [ImageRMSE.rmse, show ImageRMSE.rmseSq [] b = 0 from rfl]
    norm_num
  · rw [ImageRMSE.maxDiff]
    simp

/-- C5 counterexample: with the three image arguments `a.png`, `b.exr`,
`ref.exr` (and a decode oracle returning the one-pixel field `[1]`), the
unsupported `.png` extension does not terminate the run: the process exit
code is 0 (not non-zero), a report is produced, and an RMSE is reported for
both candidates (`rmse2 = 0` is genuinely computed from the well-formed
candidate; `rmse1` is `sqrt(1/0 * 0)`, the value `0` in this exact model
and `NaN` in the IEEE run — still a reported value, not an abort). -/
theorem main_bad_extension_no_abort :
    mainProgram decodeConst argvPng =
      (0, some { rmse1 := 0, rmse2 := 0, maxInfo := none, diffs := none }) := by
  have hpng : ImageRMSE.loadImageToLuminance decodeConst ['a', '.', 'p', 'n', 'g'] = [] := by
    decide
  have hexr : ImageRMSE.loadImageToLuminance decodeConst ['b', '.', 'e', 'x', 'r'] = [1] := by
    decide
  have href :
      ImageRMSE.loadImageToLuminance decodeConst ['r', 'e', 'f', '.', 'e', 'x', 'r'] = [1] := by
    decide
  have h1 : ImageRMSE.rmse [] [1] = 0 := by
    rw [ImageRMSE.rmse, show ImageRMSE.rmseSq [] [1] = 0 from rfl]
    norm_num
  have h2 : ImageRMSE.rmse [1] [1] = 0 := by
    rw [ImageRMSE.rmse, show ImageRMSE.rmseSq [1] [1] = 0 from by
      norm_num [ImageRMSE.rmseSq, List.range_succ]]
    norm_num
  rw [show mainProgram decodeConst argvPng =
      (0, some (ImageRMSE.computeRMSE decodeConst (String.toList "a.png")
        (String.toList "b.exr") (String.toList "ref.exr") false)) from rfl]
  simp [ImageRMSE.computeRMSE, hpng, hexr, href, h1, h2]

/-- C5 amended: an unsupported extension among the three image paths does
not abort the run: a message goes to the error stream but
`loadImageToLuminance` returns the empty field, the orchestrator continues,
reports an RMSE for every candidate (the pair involving the empty field
evaluating `sqrt(1/0 * ...)`, i.e. `NaN` under IEEE, while the well-formed
candidate's RMSE is still computed and reported), and the process exits 0.
Only the argument-count check exits non-zero. -/
theorem main_bad_extension_partial_report (decode : List Char → List ℚ)
    (p0 p1 p2 p3 : List Char)
    (h : ImageRMSE.getFreeImageFormat p1 = FREE_IMAGE_FORMAT.FIF_UNKNOWN) :
    mainProgram decode [p0, p1, p2, p3] =
      (0, some { rmse1 := ImageRMSE.rmse [] (ImageRMSE.loadImageToLuminance decode p3),
                 rmse2 := ImageRMSE.rmse (ImageRMSE.loadImageToLuminance decode p2)
                   (ImageRMSE.loadImageToLuminance decode p3),
                 maxInfo := none, diffs := none }) := by
  have hl1 : ImageRMSE.loadImageToLuminance decode p1 = [] := by
    simp [ImageRMSE.loadImageToLuminance, h]
  simp [mainProgram, ImageRMSE.computeRMSE, hl1]

/-- C5 amended witness: `main_bad_extension_partial_report` at the concrete
`.png` invocation. -/
theorem main_bad_extension_partial_report_eval :
    mainProgram decodeConst argvPng =
      (0, some { rmse1 := ImageRMSE.rmse []
                   (ImageRMSE.loadImageToLuminance decodeConst (String.toList "ref.exr")),
                 rmse2 := ImageRMSE.rmse
                   (ImageRMSE.loadImageToLuminance decodeConst (String.toList "b.exr"))
                   (ImageRMSE.loadImageToLuminance decodeConst (String.toList "ref.exr")),
                 maxInfo := none, diffs := none }) :=
  main_bad_extension_partial_report decodeConst (String.toList "prog") (String.toList "a.png")
    (String.toList "b.exr") (String.toList "ref.exr") (by decide)

/-- C6: `luminance (r, g, b)` is exactly
`0.212671*r + 0.715160*g + 0.072169*b`; in particular
`luminance (1, 0, 0) = 0.212671` and
`luminance (1, 1, 1) = 0.212671 + 0.715160 + 0.072169`. -/
theorem luminance_weights :
    (∀ r g b : ℚ, ImageUtil.luminance r g b = 0.212671 * r + 0.715160 * g + 0.072169 * b) ∧
    ImageUtil.luminance 1 0 0 = 0.212671 ∧
    ImageUtil.luminance 1 1 1 = 0.212671 + 0.715160 + 0.072169 := by
  refine ⟨fun r g b => rfl, by norm_num [ImageUtil.luminance], by norm_num [ImageUtil.luminance]⟩

/-- C7: for non-empty equal-length fields, `rmse a b = 0` exactly when the
two fields are element-wise identical; in particular `rmse a a = 0`. -/
theorem rmse_zero_iff_identical (a b : List ℚ) (hne : a ≠ []) (hlen : a.length = b.length) :
    (ImageRMSE.rmse a b = 0 ↔ a = b) ∧ ImageRMSE.rmse a a = 0 := by
  have hn : 0 < a.length := List.length_pos.mpr hne
  have hn' : (0 : ℚ) < 1 / (a.length : ℚ) := by
    apply one_div_pos.mpr
    exact_mod_cast hn
  have hq : 0 ≤ ImageRMSE.rmseSq a b := by
    rw [rmseSq_eq_sum]
    exact Finset.sum_nonneg fun i _ => mul_self_nonneg _
  have key : ImageRMSE.rmseSq a b = 0 ↔ a = b := by
    rw [rmseSq_eq_sum,
      Finset.sum_eq_zero_iff_of_nonneg fun i _ => mul_self_nonneg _]
    constructor
    · intro hz
      refine List.ext_getElem hlen ?_
      intro i h1 h2
      have h0 := mul_self_eq_zero.mp (hz i (Finset.mem_range.mpr h1))
      rw [List.getD_eq_getElem a 0 h1, List.getD_eq_getElem b 0 h2] at h0
      linarith [h0]
    · intro hab i _
      rw [hab, sub_self, mul_zero]
  constructor
  · rw [ImageRMSE.rmse, Real.sqrt_eq_zero']
    constructor
    · intro hle
      have h1 : 1 / (a.length : ℚ) * ImageRMSE.rmseSq a b ≤ 0 := by exact_mod_cast hle
      have h2 : ImageRMSE.rmseSq a b = 0 := by nlinarith
      exact key.mp h2
    · intro hab
      rw [key.mpr hab]
      norm_num
  · have hz : ImageRMSE.rmseSq a a = 0 := by
      rw [rmseSq_eq_sum]
      exact Finset.sum_eq_zero fun i _ => by rw [sub_self, mul_zero]
    rw [ImageRMSE.rmse, hz]
    norm_num

/-- C7 witness: `rmse_zero_iff_identical` at the concrete field `[1, 2]`
compared with itself. -/
theorem rmse_zero_iff_identical_eval : ImageRMSE.rmse [1, 2] [1, 2] = 0 :=
  (rmse_zero_iff_identical [1, 2] [1, 2] (List.cons_ne_nil 1 [2]) rfl).2

/-- C8: for equal-length fields with `width*height` matching their length,
every pixel `i` of the packaged RGBA buffer built from
`diffVector a b` holds `R = G = B = |a[i] - b[i]|` and `A = 1`. -/
theorem diff_image_export_pixels (a b : List ℚ) (w h i : ℕ)
    (hlen : a.length = b.length) (hwh : w * h = a.length) (hi : i < w * h) :
    (ImageRMSE.saveLuminanceImage (ImageUtil.diffVector a b) w h).getD i (0, 0, 0, 0) =
      (|a.getD i 0 - b.getD i 0|, |a.getD i 0 - b.getD i 0|, |a.getD i 0 - b.getD i 0|, 1) := by
  rw [saveLuminanceImage_eq_map, getD_map_range _ _ _ hi]
  have hia : i < a.length := hwh ▸ hi
  rw [ImageUtil.diffVector, getD_map_range _ _ _ hia]

/-- C8 witness: `diff_image_export_pixels` on the 2×1 fields `[1, 5]` and
`[2, 2]` at pixel index 1. -/
theorem diff_image_export_pixels_eval :
    (ImageRMSE.saveLuminanceImage (ImageUtil.diffVector [1, 5] [2, 2]) 2 1).getD 1 (0, 0, 0, 0) =
      (|(5 : ℚ) - 2|, |(5 : ℚ) - 2|, |(5 : ℚ) - 2|, 1) :=
  diff_image_export_pixels [1, 5] [2, 2] 2 1 1 rfl rfl (by decide)

/-- C9 counterexample: with five positional arguments (`argc = 6`) the
fourth positional argument does not enable difference-image export: the
run exits 0 with `maxInfo = none` and `diffs = none`, refuting the claim
that a fourth positional argument enables export regardless of any further
arguments (the source tests `argc == 5` exactly). -/
theorem main_fifth_arg_disables_diff :
    mainProgram decodeConst argvSix =
      (0, some { rmse1 := 0, rmse2 := 0, maxInfo := none, diffs := none }) := by
  have ha : ImageRMSE.loadImageToLuminance decodeConst ['a', '.', 'e', 'x', 'r'] = [1] := by
    decide
  have hb : ImageRMSE.loadImageToLuminance decodeConst ['b', '.', 'e', 'x', 'r'] = [1] := by
    decide
  have hr :
      ImageRMSE.loadImageToLuminance decodeConst ['r', 'e', 'f', '.', 'e', 'x', 'r'] = [1] := by
    decide
  have h2 : ImageRMSE.rmse [1] [1] = 0 := by
    rw [ImageRMSE.rmse, show ImageRMSE.rmseSq [1] [1] = 0 from by
      norm_num [ImageRMSE.rmseSq, List.range_succ]]
    norm_num
  rw [show mainProgram decodeConst argvSix =
      (0, some (ImageRMSE.computeRMSE decodeConst (String.toList "a.exr")
        (String.toList "b.exr") (String.toList "ref.exr") false)) from rfl]
  simp [ImageRMSE.computeRMSE, ha, hb, hr, h2]

/-- C9 amended: the program exits 1 (with a usage message on standard
error, modelled here as the exit code with no report) exactly when fewer
than 3 positional arguments are supplied, and difference-image export is
enabled exactly when exactly four positional arguments are supplied
(`argc == 5`): a fifth or later positional argument disables export rather
than being ignored. -/
theorem main_usage_and_diff_toggle (decode : List Char → List ℚ)
    (argv : List (List Char)) :
    ((mainProgram decode argv).1 = 1 ↔ argv.length < 4) ∧
    ((mainProgram decode argv).2 = none ↔ argv.length < 4) ∧
    ∀ r, (mainProgram decode argv).2 = some r →
      ((r.diffs.isSome ↔ argv.length = 5) ∧ (r.maxInfo.isSome ↔ argv.length = 5)) := by
  by_cases hlt : argv.length < 4
  · refine ⟨by simp [mainProgram, hlt], by simp [mainProgram, hlt], ?_⟩
    intro r hr
    simp [mainProgram, hlt] at hr
  · refine ⟨by simp [mainProgram, hlt], by simp [mainProgram, hlt], ?_⟩
    intro r hr
    simp only [mainProgram, if_neg hlt, Option.some_inj] at hr
    subst hr
    constructor
    · by_cases h5 : argv.length = 5 <;>
        simp [ImageRMSE.computeRMSE, h5]
    · by_cases h5 : argv.length = 5 <;>
        simp [ImageRMSE.computeRMSE, h5]

/-- C9 amended witness: `main_usage_and_diff_toggle` at the concrete
six-entry argument vector. -/
theorem main_usage_and_diff_toggle_eval :
    (mainProgram decodeConst argvSix).1 = 1 ↔ argvSix.length < 4 :=
  (main_usage_and_diff_toggle decodeConst argvSix).1

/-- C10: a path containing no dot at all yields `none` from the
last-dot search (an empty extension), is classified `FIF_UNKNOWN`, and
`loadImageToLuminance` returns the empty field without consulting the
decoder (the result holds for every decode oracle), exactly as for an
unrecognized extension. -/
theorem no_dot_path_rejected (filename : List Char) (decode : List Char → List ℚ)
    (h : '.' ∉ filename) :
    ImageRMSE.substrAfterLastDot filename = none ∧
    ImageRMSE.getFreeImageFormat filename = FREE_IMAGE_FORMAT.FIF_UNKNOWN ∧
    ImageRMSE.loadImageToLuminance decode filename = [] := by
  have h1 := substrAfterLastDot_eq_none filename h
  have h2 : ImageRMSE.getFreeImageFormat filename = FREE_IMAGE_FORMAT.FIF_UNKNOWN := by
    simp [ImageRMSE.getFreeImageFormat, h1]
  exact ⟨h1, h2, by simp [ImageRMSE.loadImageToLuminance, h2]⟩

/-- C10 witness: `no_dot_path_rejected` at the concrete dotless path
`noext`. -/
theorem no_dot_path_rejected_eval :
    ImageRMSE.getFreeImageFormat (String.toList "noext") = FREE_IMAGE_FORMAT.FIF_UNKNOWN ∧
    ImageRMSE.loadImageToLuminance decodeConst (String.toList "noext") = [] :=
  ⟨(no_dot_path_rejected (String.toList "noext") decodeConst (by decide)).2.1,
    (no_dot_path_rejected (String.toList "noext") decodeConst (by decide)).2.2⟩
